import Mathlib

/-!
Verification development for the Old World Analytics application.

The embedding below models the two source files:
* `backend/data_loader.py` — the unit-record flattener `load_all_data`,
  which parses per-faction JSON documents into flat rows and normalizes
  numeric columns;
* `main.py` — the reverse attribution engine `calculate_split_values`,
  the naked-cost computations of the unit card and of the Value
  Discovery tab, and the champion name formatter `format_name`.

JSON documents are modelled as typed structures; a document that the
json parser rejects is modelled as `none`.  A field that `dict.get`
may fail to find is an `Option`.  Dictionary accesses written as
`d[k]` in the source, which raise `KeyError` when the key is absent,
are modelled in the `Except` monad, and the per-file `try/except` of
the loader is modelled by a fold that stops consuming a document at
the first failing unit while keeping the rows appended before it,
exactly as the shared `all_rows` list in the source does.  Prices and
normalized numeric columns are rationals.
-/

namespace OldWorld

/-- Models a single entry of a unit `upgrades` list: a JSON object whose
`name` key is accessed with `u[\x7b'name'\x7d]`-style mandatory lookup
(hence `Option` here, failure modelled downstream) and whose
`is_default` key is read with `u.get`. -/
structure Upgrade where
  name : Option String
  is_default : Option Bool
deriving DecidableEq

/-- Models one model entry of a unit (`model.get` fields). -/
structure ModelEntry where
  name : Option String
  role : Option String
  cost : Option Nat
  rules : List String
  default_weapons : List String
  stats : List (String × String)
deriving DecidableEq

/-- Models one unit entry of a faction document. -/
structure UnitEntry where
  category : Option String
  base_points : Option Nat
  rules : List String
  upgrades : List Upgrade
  models : List ModelEntry
deriving DecidableEq

/-- Models one faction document (already parsed JSON). -/
structure FactionDoc where
  faction_name : Option String
  units : List UnitEntry
deriving DecidableEq

/-- The fixed column schema of `load_all_data` (`expected_cols`,
data_loader.py lines 10-14). -/
def expected_cols : List String :=
  ["Faction", "Unit Name", "Role", "Org Slot", "Points", "Troop Type",
   "Innate Rules", "Special Rules", "Default Equipment", "Optional Upgrades",
   "M", "WS", "BS", "S", "T", "W", "I", "A", "Ld"]

/-- One flattened row of the output table.  String-valued columns hold
exactly what the source stores in the row dictionary; the numeric
columns hold the result of the `pd.to_numeric` normalization pass
(data_loader.py lines 89-91) as rationals. -/
structure Row where
  faction : String
  unit_name : Option String
  role : String
  org_slot : String
  points : ℚ
  troop_type : String
  innate_rules : String
  special_rules : List String
  default_equipment : String
  optional_upgrades : String
  M : ℚ
  WS : ℚ
  BS : ℚ
  S : ℚ
  T : ℚ
  W : ℚ
  I : ℚ
  A : ℚ
  Ld : ℚ
deriving DecidableEq

/-- The output of `load_all_data`: a data frame with a column schema
and a list of rows. -/
structure Frame where
  columns : List String
  rows : List Row
deriving DecidableEq

/-- Numeric value of a digit run, as the regex extraction plus
`pd.to_numeric` computes it. -/
def digit_run_val (ds : List Char) : Nat :=
  ds.foldl (fun a c => 10 * a + (c.toNat - 48)) 0

/-- First maximal digit run of a character list: the semantics of the
pandas extraction with the digit-run regex used at data_loader.py
line 91 (first match anywhere in the string, greedy). -/
def first_digit_run : List Char → Option (List Char)
  | [] => none
  | c :: cs =>
    if c.isDigit then some (c :: cs.takeWhile (fun d => d.isDigit))
    else first_digit_run cs

/-- The numeric normalization applied to every numeric column
(data_loader.py lines 89-91): extract the first digit run of the
string form of the value and coerce, with failures becoming `0`
(`errors=coerce` followed by `fillna(0)`). -/
def normNum (s : String) : ℚ :=
  match first_digit_run s.toList with
  | some ds => (digit_run_val ds : ℚ)
  | none => 0

/-- The Ld cell of a row (data_loader.py line 79):
`stats.get("LD") or stats.get("Ld", "-")`.  Python `or` falls through
when the left operand is falsy, that is absent or the empty string. -/
def ldRaw (stats : List (String × String)) : String :=
  match stats.lookup "LD" with
  | some v => if v = "" then (stats.lookup "Ld").getD "-" else v
  | none => (stats.lookup "Ld").getD "-"

/-- Python truthiness of `u.get("is_default")`: an absent key is falsy. -/
def truthy : Option Bool → Bool
  | some b => b
  | none => false

/-- `sorted` on a list of strings (ascending lexicographic order). -/
def sortStrings (l : List String) : List String :=
  List.insertionSort (· ≤ ·) l

/-- `sorted(list(set(unit.rules + model.rules)))`
(data_loader.py line 55). -/
def combined_rules (unit : UnitEntry) (model : ModelEntry) : List String :=
  sortStrings ((unit.rules ++ model.rules).dedup)

/-- `sorted(list(set(model_weapons + unit_defaults)))`
(data_loader.py line 58). -/
def full_loadout (model : ModelEntry) (unit_defaults : List String) : List String :=
  sortStrings ((model.default_weapons ++ unit_defaults).dedup)

/-- The upgrades of a unit flagged as default
(the filter of the comprehension at data_loader.py line 57). -/
def defaultEntries (unit : UnitEntry) : List Upgrade :=
  unit.upgrades.filter fun u => truthy u.is_default

/-- The upgrades of a unit NOT flagged as default
(the filter of the comprehension at data_loader.py line 46). -/
def optionalEntries (unit : UnitEntry) : List Upgrade :=
  unit.upgrades.filter fun u => !truthy u.is_default

/-- Extraction of the `name` field along a list of upgrades, failing on
the first upgrade without a `name` key (the `u[\x7b'name'\x7d]`-style
mandatory access raises `KeyError`). -/
def namesOfE : List Upgrade → Except Unit (List String)
  | [] => .ok []
  | u :: us =>
    match u.name with
    | some n =>
      match namesOfE us with
      | .ok ns => .ok (n :: ns)
      | .error e => .error e
    | none => .error ()

/-- The comprehension at data_loader.py line 46. -/
def optionalUpgradesE (unit : UnitEntry) : Except Unit (List String) :=
  namesOfE (optionalEntries unit)

/-- The comprehension at data_loader.py line 57. -/
def unitDefaultsE (unit : UnitEntry) : Except Unit (List String) :=
  namesOfE (defaultEntries unit)

/-- Construction of one row dictionary (data_loader.py lines 49-80),
with the numeric normalization of lines 89-91 already applied to the
numeric cells.  The Points cell stores the resolved point cost; the
normalization pass is the identity on the decimal form of a natural
number, so the cost is cast directly. -/
def rowOfModel (faction : String) (unit : UnitEntry)
    (optional_names unit_defaults : List String) (model : ModelEntry) : Row :=
  let stats := model.stats
  let c0 := model.cost.getD 0
  let point_cost := if c0 = 0 then unit.base_points.getD 0 else c0
  { faction := faction
    unit_name := model.name
    role := model.role.getD "rank_and_file"
    org_slot := unit.category.getD "Special"
    points := (point_cost : ℚ)
    troop_type := (stats.lookup "Type").getD "Unknown"
    innate_rules := String.intercalate ", " (combined_rules unit model)
    special_rules := combined_rules unit model
    default_equipment := String.intercalate ", " (full_loadout model unit_defaults)
    optional_upgrades := String.intercalate ", " optional_names
    M := normNum ((stats.lookup "M").getD "-")
    WS := normNum ((stats.lookup "WS").getD "-")
    BS := normNum ((stats.lookup "BS").getD "-")
    S := normNum ((stats.lookup "S").getD "-")
    T := normNum ((stats.lookup "T").getD "-")
    W := normNum ((stats.lookup "W").getD "-")
    I := normNum ((stats.lookup "I").getD "-")
    A := normNum ((stats.lookup "A").getD "-")
    Ld := normNum (ldRaw stats) }

/-- Rows contributed by one unit entry, or the exception it raises.
The optional-upgrades comprehension (line 46) runs before the model
loop; the unit-defaults comprehension (line 57) runs inside the model
loop, so it is only evaluated when the unit has at least one model,
and it fails before any row of the unit is appended. -/
def unitRowsE (faction : String) (unit : UnitEntry) : Except Unit (List Row) :=
  match optionalUpgradesE unit with
  | .error e => .error e
  | .ok opts =>
    if unit.models.isEmpty then .ok []
    else
      match unitDefaultsE unit with
      | .error e => .error e
      | .ok defs => .ok (unit.models.map (rowOfModel faction unit opts defs))

/-- The unit loop over one document, accumulating into the shared row
list.  An exception raised by a unit aborts the document, but the rows
appended by the preceding units stay in the accumulator — exactly the
behavior of the `try/except` around the loop in the source, which
catches after `all_rows.append` already ran.  The boolean reports
whether the except branch was taken (the error is logged, not fatal). -/
def unitsRowsAcc (faction : String) : List UnitEntry → List Row → List Row × Bool
  | [], acc => (acc, false)
  | u :: us, acc =>
    match unitRowsE faction u with
    | .ok rows => unitsRowsAcc faction us (acc ++ rows)
    | .error _ => (acc, true)

/-- Rows contributed by one parsed document, with the error flag
(data_loader.py lines 39-82); the faction name defaults to
`"Unknown"`. -/
def docRows (doc : FactionDoc) : List Row × Bool :=
  unitsRowsAcc (doc.faction_name.getD "Unknown") doc.units []

/-- Rows of the whole file loop.  A `none` document is one the json
parser rejected: it contributes nothing. -/
def allRows : List (Option FactionDoc) → List Row
  | [] => []
  | none :: ds => allRows ds
  | some doc :: ds => (docRows doc).1 ++ allRows ds

/-- `load_all_data` (data_loader.py): no files, or no resulting rows,
yields an empty frame with the fixed schema; otherwise the frame of
the accumulated rows. -/
def load_all_data (docs : List (Option FactionDoc)) : Frame :=
  if docs.isEmpty then { columns := expected_cols, rows := [] }
  else
    let rows := allRows docs
    if rows.isEmpty then { columns := expected_cols, rows := [] }
    else { columns := expected_cols, rows := rows }

/-- Python `str.lower()`, written structurally over the character list
(the source data is ASCII). -/
def lowerStr (s : String) : String :=
  ⟨s.data.map Char.toLower⟩

/-- Substring containment on character lists (Python `sub in s`). -/
def containsSub (sub : List Char) : List Char → Bool
  | [] => sub.isEmpty
  | c :: t => sub.isPrefixOf (c :: t) || containsSub sub t

/-- Python string membership `sub in s`. -/
def strContains (s sub : String) : Bool :=
  containsSub sub.toList s.toList

/-- The exclusion guard list for the table key `bow`
(main.py line 69). -/
def bow_exclusions : List String :=
  ["crossbow", "longbow", "shortbow", "elbow"]

/-- The exclusion guard list for the table key `spear`
(main.py line 74). -/
def spear_exclusions : List String :=
  ["throwing spear", "cavalry spear"]

/-- The contribution of one equipment table entry to the gear value
(main.py lines 60-80): the price when the lowercased key occurs in
the lowercased loadout blob and no exclusion guard fires, else 0. -/
def equipContribution (loadout_str : String) (item_key : String) (price : ℚ) : ℚ :=
  let item_lower := lowerStr item_key
  if strContains loadout_str item_lower then
    if item_lower == "bow" && bow_exclusions.any (fun x => strContains loadout_str x) then 0
    else if item_lower == "spear" && spear_exclusions.any (fun x => strContains loadout_str x) then 0
    else price
  else 0

/-- The equipment scan of `calculate_split_values`: summed contribution
over the resolved equipment table, in table iteration order. -/
def gearScan (prices : List (String × ℚ)) (loadout_str : String) : ℚ :=
  (prices.map fun p => equipContribution loadout_str p.1 p.2).sum

/-- The rules scan of `calculate_split_values` (main.py lines 83-87):
no exclusion guards. -/
def ruleScan (prices : List (String × ℚ)) (rules_str : String) : ℚ :=
  (prices.map fun p => if strContains rules_str (lowerStr p.1) then p.2 else 0).sum

/-- Role-table resolution (main.py lines 48-49):
`DB.get(role, DB.get("rank_and_file", empty))`. -/
def dbGet (db : List (String × List (String × ℚ))) (role : String) : List (String × ℚ) :=
  match db.lookup role with
  | some t => t
  | none => (db.lookup "rank_and_file").getD []

/-- The body of `calculate_split_values` once the two role tables are
resolved: the Python truthiness checks on the two text cells skip the
scans on empty strings. -/
def calcFromTables (equip_prices rule_prices : List (String × ℚ)) (row : Row) : ℚ × ℚ :=
  let g_val := if row.default_equipment = "" then 0
    else gearScan equip_prices (lowerStr row.default_equipment)
  let r_val := if row.innate_rules = "" then 0
    else ruleScan rule_prices (lowerStr row.innate_rules)
  (g_val, r_val)

/-- `calculate_split_values` (main.py lines 39-89). -/
def calculate_split_values (edb rdb : List (String × List (String × ℚ)))
    (row : Row) : ℚ × ℚ :=
  let role := if row.org_slot = "Characters" then "character" else "rank_and_file"
  calcFromTables (dbGet edb role) (dbGet rdb role) row

/-- The naked cost of the unit card (main.py lines 111-113). -/
def naked_cost (edb rdb : List (String × List (String × ℚ))) (row : Row) : ℚ :=
  let gr := calculate_split_values edb rdb row
  let total_extras := gr.1 + gr.2
  max (row.points - total_extras) 1

/-- `calc_total_extras` of the Value Discovery tab (main.py
lines 326-328). -/
def calc_total_extras (edb rdb : List (String × List (String × ℚ))) (row : Row) : ℚ :=
  let gr := calculate_split_values edb rdb row
  gr.1 + gr.2

/-- The `Naked_Points` column of the Value Discovery tab (main.py
lines 330-332): subtraction followed by the floor at 1.0. -/
def Naked_Points (edb rdb : List (String × List (String × ℚ))) (row : Row) : ℚ :=
  max (row.points - calc_total_extras edb rdb row) 1

/-- `format_name` (main.py lines 97-101), the per-row closure acting on
the Role and Unit Name cells. -/
def format_name (role unit_name : String) : String :=
  if role = "champion" then
    if lowerStr unit_name = "champion" then "Champion"
    else "Champion - " ++ unit_name
  else unit_name

/-- Concrete record of the C1 scenario: a rank-and-file row whose
default equipment cell contains the word Crossbow. -/
def rowCrossbow : Row :=
  { faction := "", unit_name := none, role := "", org_slot := "Special",
    points := 0, troop_type := "", innate_rules := "", special_rules := [],
    default_equipment := "Crossbow", optional_upgrades := "",
    M := 0, WS := 0, BS := 0, S := 0, T := 0, W := 0, I := 0, A := 0, Ld := 0 }

/-- A well-formed unit: one model, no upgrades. -/
def goodUnit : UnitEntry :=
  { category := none, base_points := some 10, rules := ["Stubborn"], upgrades := [],
    models := [{ name := some "Spearman", role := none, cost := none, rules := ["Fly"],
                 default_weapons := ["Spear"],
                 stats := [("M", "4"), ("Type", "Infantry")] }] }

/-- The single model of `goodUnit`. -/
def modelSpearman : ModelEntry :=
  { name := some "Spearman", role := none, cost := none, rules := ["Fly"],
    default_weapons := ["Spear"],
    stats := [("M", "4"), ("Type", "Infantry")] }

/-- A unit whose only upgrade lacks the mandatory `name` key: processing
it raises and lands in the except branch of the loader. -/
def badUnit : UnitEntry :=
  { category := none, base_points := none, rules := [],
    upgrades := [{ name := none, is_default := none }], models := [] }

/-- A parseable document holding one valid unit followed by one
malformed unit. -/
def badDoc : FactionDoc :=
  { faction_name := some "Empire", units := [goodUnit, badUnit] }

/-- A fully well-formed document. -/
def goodDoc : FactionDoc :=
  { faction_name := some "Empire", units := [goodUnit] }

/-- The row the loader produces for `modelSpearman` inside `goodDoc`. -/
def rowSpearman : Row := rowOfModel "Empire" goodUnit [] [] modelSpearman

/-- A concrete upgrade flagged as default. -/
def upShield : Upgrade := { name := some "Shield", is_default := some true }

/-- A concrete upgrade with no is_default key (hence not default). -/
def upHorn : Upgrade := { name := some "Horn", is_default := none }

/-- A concrete unit with one default and one optional upgrade. -/
def demoUnit : UnitEntry :=
  { category := none, base_points := none, rules := [],
    upgrades := [upShield, upHorn], models := [] }

/-- One equipment price table, one entry order. -/
def edbA : List (String × List (String × ℚ)) :=
  [("rank_and_file", [("halberd", 4), ("shield", 2)])]

/-- The same equipment price table with its entries permuted. -/
def edbB : List (String × List (String × ℚ)) :=
  [("rank_and_file", [("shield", 2), ("halberd", 4)])]

/-! ### Helper lemmas -/

lemma sortStrings_sorted (l : List String) : (sortStrings l).Sorted (· ≤ ·) :=
  List.sorted_insertionSort _ l

lemma sortStrings_nodup {l : List String} (h : l.Nodup) : (sortStrings l).Nodup :=
  ((List.perm_insertionSort _ l).nodup_iff).mpr h

lemma combined_rules_sorted (unit : UnitEntry) (model : ModelEntry) :
    (combined_rules unit model).Sorted (· ≤ ·) ∧ (combined_rules unit model).Nodup :=
  ⟨sortStrings_sorted _, sortStrings_nodup (List.nodup_dedup _)⟩

lemma full_loadout_sorted (model : ModelEntry) (defs : List String) :
    (full_loadout model defs).Sorted (· ≤ ·) ∧ (full_loadout model defs).Nodup :=
  ⟨sortStrings_sorted _, sortStrings_nodup (List.nodup_dedup _)⟩

lemma normNum_nonneg (s : String) : 0 ≤ normNum s := by
  unfold normNum
  split
  · exact Nat.cast_nonneg _
  · exact le_refl 0

lemma no_digit_run {l : List Char} (h : ∀ c ∈ l, c.isDigit = false) :
    first_digit_run l = none := by
  induction l with
  | nil => rfl
  | cons c cs ih =>
    unfold first_digit_run
    rw [h c (List.mem_cons_self c cs)]
    exact ih fun d hd => h d (List.mem_cons_of_mem c hd)

lemma unitRowsE_ok_mem {faction : String} {unit : UnitEntry} {rows : List Row}
    (h : unitRowsE faction unit = .ok rows) {row : Row} (hr : row ∈ rows) :
    ∃ opts defs model, model ∈ unit.models ∧ row = rowOfModel faction unit opts defs model := by
  unfold unitRowsE at h
  cases ho : optionalUpgradesE unit with
  | error e => rw [ho] at h; cases h
  | ok opts =>
    rw [ho] at h
    dsimp only at h
    by_cases hm : unit.models.isEmpty
    · rw [if_pos hm] at h
      cases h
      cases hr
    · rw [if_neg hm] at h
      cases hd : unitDefaultsE unit with
      | error e => rw [hd] at h; cases h
      | ok defs =>
        rw [hd] at h
        cases h
        rcases List.mem_map.mp hr with ⟨model, hmm, heq⟩
        exact ⟨opts, defs, model, hmm, heq.symm⟩

lemma mem_unitsRowsAcc {faction : String} :
    ∀ {units : List UnitEntry} {acc : List Row} {row : Row},
      row ∈ (unitsRowsAcc faction units acc).1 →
      row ∈ acc ∨ ∃ unit ∈ units, ∃ rows, unitRowsE faction unit = .ok rows ∧ row ∈ rows := by
  intro units
  induction units with
  | nil => intro acc row h; exact Or.inl h
  | cons u us ih =>
    intro acc row h
    unfold unitsRowsAcc at h
    cases hu : unitRowsE faction u with
    | ok rows =>
      rw [hu] at h
      rcases ih h with hacc | ⟨unit, hm, rows2, hok, hr⟩
      · rcases List.mem_append.mp hacc with h1 | h2
        · exact Or.inl h1
        · exact Or.inr ⟨u, List.mem_cons_self u us, rows, hu, h2⟩
      · exact Or.inr ⟨unit, List.mem_cons_of_mem u hm, rows2, hok, hr⟩
    | error e => rw [hu] at h; exact Or.inl h

lemma row_shape {docs : List (Option FactionDoc)} {row : Row}
    (h : row ∈ (load_all_data docs).rows) :
    ∃ faction unit opts defs model,
      model ∈ unit.models ∧ row = rowOfModel faction unit opts defs model := by
  have hall : row ∈ allRows docs := by
    unfold load_all_data at h
    split at h
    · cases h
    · dsimp only at h
      split at h
      · cases h
      · exact h
  clear h
  induction docs with
  | nil => cases hall
  | cons d ds ih =>
    cases d with
    | none =>
      simp only [allRows] at hall
      exact ih hall
    | some doc =>
      simp only [allRows] at hall
      rcases List.mem_append.mp hall with h1 | h2
      · unfold docRows at h1
        rcases mem_unitsRowsAcc h1 with habs | ⟨unit, _, rows, hok, hr⟩
        · cases habs
        · rcases unitRowsE_ok_mem hok hr with ⟨opts, defs, model, hmm, heq⟩
          exact ⟨_, unit, opts, defs, model, hmm, heq⟩
      · exact ih h2

lemma gearScan_perm {p₁ p₂ : List (String × ℚ)} (h : p₁.Perm p₂) (s : String) :
    gearScan p₁ s = gearScan p₂ s :=
  List.Perm.sum_eq (h.map _)

lemma ruleScan_perm {p₁ p₂ : List (String × ℚ)} (h : p₁.Perm p₂) (s : String) :
    ruleScan p₁ s = ruleScan p₂ s :=
  List.Perm.sum_eq (h.map _)

lemma dbGet_single (t : List (String × ℚ)) (role : String) :
    dbGet [("rank_and_file", t)] role = t := by
  unfold dbGet
  cases h : (role == "rank_and_file") <;> simp [List.lookup, h]

lemma namesOfE_mem :
    ∀ {l : List Upgrade} {ns : List String}, namesOfE l = .ok ns →
      ∀ u ∈ l, ∃ n, u.name = some n ∧ n ∈ ns := by
  intro l
  induction l with
  | nil => intro ns _ u hu; cases hu
  | cons a as ih =>
    intro ns h u hu
    unfold namesOfE at h
    cases ha : a.name with
    | none => rw [ha] at h; cases h
    | some n =>
      rw [ha] at h
      dsimp only at h
      cases hrec : namesOfE as with
      | error e => rw [hrec] at h; cases h
      | ok ms =>
        rw [hrec] at h
        dsimp only at h
        cases h
        rcases List.mem_cons.mp hu with rfl | hmem
        · exact ⟨n, ha, List.mem_cons_self n ms⟩
        · rcases ih hrec u hmem with ⟨m, hm1, hm2⟩
          exact ⟨m, hm1, List.mem_cons_of_mem n hm2⟩

/-! ### Claim theorems -/

/-- C2: for every record, the naked cost of the unit card and the
Naked_Points column of the Value Discovery tab both equal
max(points - gearValue - rulesValue, 1.0), and are therefore at
least 1.0. -/
theorem naked_points_floor (edb rdb : List (String × List (String × ℚ))) (row : Row) :
    naked_cost edb rdb row
      = max (row.points - (calculate_split_values edb rdb row).1
          - (calculate_split_values edb rdb row).2) 1
    ∧ Naked_Points edb rdb row
      = max (row.points - (calculate_split_values edb rdb row).1
          - (calculate_split_values edb rdb row).2) 1
    ∧ 1 ≤ naked_cost edb rdb row
    ∧ 1 ≤ Naked_Points edb rdb row := by
  refine ⟨?_, ?_, ?_, ?_⟩ <;>
    simp [naked_cost, Naked_Points, calc_total_extras, sub_sub, le_max_right]

/-- C4 counterexample: a parseable document with one valid unit and one
unit whose upgrade lacks the mandatory name key takes the except
branch of the loader (error flag set, the error is logged), yet it is
NOT skipped entirely: it contributes the row of the valid unit to the
output. -/
theorem malformed_doc_partial_rows :
    (docRows badDoc).2 = true
    ∧ ((docRows badDoc).1).length = 1
    ∧ (load_all_data [some badDoc]).rows.length = 1 := by decide

/-- C4 (amended): an unreadable or unparseable document contributes no
records, and every document contributes exactly its pre-failure rows;
the documents around it are processed regardless, so a partial load
succeeds with no fatal error. -/
theorem loader_skip_behavior :
    (∀ l1 l2 : List (Option FactionDoc), allRows (l1 ++ none :: l2) = allRows (l1 ++ l2))
    ∧ (∀ (doc : FactionDoc) (l1 l2 : List (Option FactionDoc)),
        allRows (l1 ++ some doc :: l2) = allRows l1 ++ ((docRows doc).1 ++ allRows l2)) := by
  constructor
  · intro l1 l2
    induction l1 with
    | nil => rfl
    | cons d ds ih => cases d <;> simp [allRows, ih]
  · intro doc l1 l2
    induction l1 with
    | nil => rfl
    | cons d ds ih => cases d <;> simp [allRows, ih]

/-- C7 counterexample: a stats block holding the key LD with the empty
value and the key Ld with value 7.  The LD key is present, but its
value is not the one used: the lookup falls through to Ld, so the
normalized Ld cell becomes 7, not 0. -/
theorem ld_precedence_counterexample :
    ([("LD", ""), ("Ld", "7")] : List (String × String)).lookup "LD" = some ""
    ∧ ldRaw [("LD", ""), ("Ld", "7")] = "7"
    ∧ ("7" : String) ≠ ""
    ∧ normNum (ldRaw [("LD", ""), ("Ld", "7")]) = 7
    ∧ normNum "" = 0 :=
  ⟨by decide, by decide, by decide, rfl, rfl⟩

/-- C7 (amended): the LD key takes precedence over Ld only when it is
present with a truthy (non-empty) value; when LD is absent or empty
the Ld key is consulted, with default "-".  The Ld cell of every row
is the numeric normalization of that lookup. -/
theorem ld_precedence_amended :
    (∀ (stats : List (String × String)) v,
        stats.lookup "LD" = some v → v ≠ "" → ldRaw stats = v)
    ∧ (∀ stats : List (String × String),
        stats.lookup "LD" = none → ldRaw stats = (stats.lookup "Ld").getD "-")
    ∧ (∀ stats : List (String × String),
        stats.lookup "LD" = some "" → ldRaw stats = (stats.lookup "Ld").getD "-")
    ∧ (∀ f unit opts defs model,
        (rowOfModel f unit opts defs model).Ld = normNum (ldRaw model.stats)) := by
  refine ⟨?_, ?_, ?_, ?_⟩
  · intro stats v h hne
    simp [ldRaw, h, hne]
  · intro stats h
    simp [ldRaw, h]
  · intro stats h
    simp [ldRaw, h]
  · intro f unit opts defs model
    rfl

/-- Witness for the amended C7 theorem at a concrete stats block. -/
theorem ld_precedence_witness :
    ([("LD", "9")] : List (String × String)).lookup "LD" = some "9"
    ∧ ("9" : String) ≠ ""
    ∧ ldRaw [("LD", "9")] = "9" :=
  ⟨by decide, by decide, ld_precedence_amended.1 [("LD", "9")] "9" (by decide) (by decide)⟩

/-- C8 counterexample: the champion renderer uses a plain hyphen, not
an em dash, and it compares the base name case-insensitively: the
base name CHAMPION is rendered as Champion although it does not equal
Champion. -/
theorem format_name_counterexample :
    format_name "champion" "Bob" ≠ "Champion — Bob"
    ∧ format_name "champion" "Bob" = "Champion - Bob"
    ∧ format_name "champion" "CHAMPION" = "Champion"
    ∧ ("CHAMPION" : String) ≠ "Champion" := by decide

/-- C8 (amended): a record with role champion whose lowercased base
name equals champion is rendered as exactly Champion; with any other
base name it is rendered as the base name prefixed by the marker
Champion followed by a spaced hyphen; any other role keeps the name
unchanged. -/
theorem format_name_amended (role unit_name : String) :
    (role = "champion" → lowerStr unit_name = "champion" →
      format_name role unit_name = "Champion")
    ∧ (role = "champion" → lowerStr unit_name ≠ "champion" →
      format_name role unit_name = "Champion - " ++ unit_name)
    ∧ (role ≠ "champion" → format_name role unit_name = unit_name) := by
  refine ⟨fun h1 h2 => ?_, fun h1 h2 => ?_, fun h1 => ?_⟩
  · simp [format_name, h1, h2]
  · simp [format_name, h1, h2]
  · simp [format_name, h1]

/-- Witness for the amended C8 theorem at a concrete role and name. -/
theorem format_name_witness :
    lowerStr "Grunt" ≠ "champion"
    ∧ format_name "champion" "Grunt" = "Champion - Grunt" :=
  ⟨by decide, (format_name_amended "champion" "Grunt").2.1 rfl (by decide)⟩

/-- C9: zero input documents, or documents yielding zero rows, produce
an empty frame carrying the fixed stable column schema; the schema is
that fixed list on every output. -/
theorem empty_load_schema :
    load_all_data [] = { columns := expected_cols, rows := [] }
    ∧ (∀ docs, allRows docs = [] →
        load_all_data docs = { columns := expected_cols, rows := [] })
    ∧ (∀ docs, (load_all_data docs).columns = expected_cols) := by
  refine ⟨rfl, ?_, ?_⟩
  · intro docs h
    unfold load_all_data
    split
    · rfl
    · simp [h]
  · intro docs
    unfold load_all_data
    split
    · rfl
    · dsimp only
      split <;> rfl

/-- Witness for C9 at a concrete document list with no parseable
document. -/
theorem empty_load_schema_witness :
    allRows [none] = []
    ∧ load_all_data [none] = { columns := expected_cols, rows := [] } :=
  ⟨rfl, empty_load_schema.2.1 [none] rfl⟩

/-- C10: every upgrade entry of a unit lands in exactly one of the two
derived entry lists, decided by the truthiness of its is_default
field, an absent field counting as not default; when the name
comprehensions succeed, the name of the upgrade appears in the
corresponding derived name list. -/
theorem upgrade_partition (unit : UnitEntry) (u : Upgrade) (hu : u ∈ unit.upgrades) :
    ((truthy u.is_default = true ∧ u ∈ defaultEntries unit ∧ u ∉ optionalEntries unit)
      ∨ (truthy u.is_default = false ∧ u ∈ optionalEntries unit ∧ u ∉ defaultEntries unit))
    ∧ (u.is_default = none → truthy u.is_default = false)
    ∧ (∀ defs, unitDefaultsE unit = .ok defs → u ∈ defaultEntries unit →
        ∃ n, u.name = some n ∧ n ∈ defs)
    ∧ (∀ opts, optionalUpgradesE unit = .ok opts → u ∈ optionalEntries unit →
        ∃ n, u.name = some n ∧ n ∈ opts) := by
  refine ⟨?_, ?_, ?_, ?_⟩
  · cases ht : truthy u.is_default with
    | true =>
      refine Or.inl ⟨rfl, List.mem_filter.mpr ⟨hu, ht⟩, fun hmem => ?_⟩
      have := (List.mem_filter.mp hmem).2
      simp [ht] at this
    | false =>
      refine Or.inr ⟨rfl, List.mem_filter.mpr ⟨hu, by simp [ht]⟩, fun hmem => ?_⟩
      have := (List.mem_filter.mp hmem).2
      simp [ht] at this
  · intro h
    simp [truthy, h]
  · intro defs hok hmem
    exact namesOfE_mem hok u hmem
  · intro opts hok hmem
    exact namesOfE_mem hok u hmem

/-- Witness for C10 at a concrete unit with one default and one
optional upgrade. -/
theorem upgrade_partition_witness :
    upShield ∈ demoUnit.upgrades
    ∧ ((truthy upShield.is_default = true
          ∧ upShield ∈ defaultEntries demoUnit ∧ upShield ∉ optionalEntries demoUnit)
        ∨ (truthy upShield.is_default = false
          ∧ upShield ∈ optionalEntries demoUnit ∧ upShield ∉ defaultEntries demoUnit)) :=
  ⟨by decide, (upgrade_partition demoUnit upShield (by decide)).1⟩

lemma gearScan_cons (p : String × ℚ) (ps : List (String × ℚ)) (s : String) :
    gearScan (p :: ps) s = equipContribution s p.1 p.2 + gearScan ps s := by
  simp [gearScan]

lemma equipContribution_bow {loadout_str key : String} (price : ℚ)
    (hk : lowerStr key = "bow")
    (h : (bow_exclusions.any fun x => strContains loadout_str x) = true) :
    equipContribution loadout_str key price = 0 := by
  simp [equipContribution, hk, h]

/-- C1: whenever the lowercased defaultEquipment blob contains one of
the guard substrings, the equipment scan gives the same gear value as
the scan over the table with every entry whose key lowercases to bow
removed — the price of the key bow is never added; in the concrete
scenario of the spec, a table pricing bow at 5 and crossbow at 10
against a record holding a Crossbow values the gear at 10, not 15. -/
theorem bow_guard_suppresses_bow (prices : List (String × ℚ)) (row : Row)
    (h : (bow_exclusions.any fun x => strContains (lowerStr row.default_equipment) x) = true) :
    gearScan prices (lowerStr row.default_equipment)
      = gearScan (prices.filter fun p => lowerStr p.1 != "bow")
          (lowerStr row.default_equipment)
    ∧ (calculate_split_values [("rank_and_file", [("bow", 5), ("crossbow", 10)])]
        [] rowCrossbow).1 = 10 := by
  constructor
  · induction prices with
    | nil => rfl
    | cons p ps ih =>
      rw [gearScan_cons]
      by_cases hk : lowerStr p.1 = "bow"
      · rw [equipContribution_bow p.2 hk h, zero_add, ih]
        have hc : (lowerStr p.1 != "bow") = false := by simp [hk]
        simp [List.filter_cons, hc]
      · have hc : (lowerStr p.1 != "bow") = true := by simp [hk]
        simp [List.filter_cons, hc, gearScan_cons, ih]
  · simp +decide [calculate_split_values, calcFromTables, dbGet, gearScan,
      equipContribution, rowCrossbow, List.lookup]

/-- Witness for C1 at the concrete scenario record and table. -/
theorem bow_guard_witness :
    (bow_exclusions.any fun x => strContains (lowerStr rowCrossbow.default_equipment) x) = true
    ∧ gearScan [("bow", 5), ("crossbow", 10)] (lowerStr rowCrossbow.default_equipment)
      = gearScan (([("bow", 5), ("crossbow", 10)] : List (String × ℚ)).filter
          fun p => lowerStr p.1 != "bow") (lowerStr rowCrossbow.default_equipment) :=
  ⟨by decide,
    (bow_guard_suppresses_bow [("bow", 5), ("crossbow", 10)] rowCrossbow (by decide)).1⟩

/-- C3: every loaded record carries a rules list that is sorted
ascending and duplicate-free; the combined rules list is the sorted
deduplication of the union of unit and model rules, the loadout list
the sorted deduplication of the union of model weapons and unit
default upgrade names, both sorted and duplicate-free; and each row
stores exactly these (the equipment one comma-joined). -/
theorem rules_and_loadout_sorted (docs : List (Option FactionDoc)) (row : Row)
    (h : row ∈ (load_all_data docs).rows) :
    (row.special_rules.Sorted (· ≤ ·) ∧ row.special_rules.Nodup)
    ∧ (∀ (unit : UnitEntry) (model : ModelEntry),
        combined_rules unit model = sortStrings ((unit.rules ++ model.rules).dedup)
        ∧ (combined_rules unit model).Sorted (· ≤ ·)
        ∧ (combined_rules unit model).Nodup)
    ∧ (∀ (model : ModelEntry) (defs : List String),
        full_loadout model defs = sortStrings ((model.default_weapons ++ defs).dedup)
        ∧ (full_loadout model defs).Sorted (· ≤ ·)
        ∧ (full_loadout model defs).Nodup)
    ∧ (∀ f unit opts defs model,
        (rowOfModel f unit opts defs model).special_rules = combined_rules unit model
        ∧ (rowOfModel f unit opts defs model).default_equipment
          = String.intercalate ", " (full_loadout model defs)) := by
  refine ⟨?_, ?_, ?_, ?_⟩
  · rcases row_shape h with ⟨f, unit, opts, defs, model, _, rfl⟩
    exact combined_rules_sorted unit model
  · intro unit model
    exact ⟨rfl, (combined_rules_sorted unit model).1, (combined_rules_sorted unit model).2⟩
  · intro model defs
    exact ⟨rfl, (full_loadout_sorted model defs).1, (full_loadout_sorted model defs).2⟩
  · intro f unit opts defs model
    exact ⟨rfl, rfl⟩

/-- Witness for C3 at a concrete loaded document. -/
theorem rules_sorted_witness :
    rowSpearman ∈ (load_all_data [some goodDoc]).rows
    ∧ (rowSpearman.special_rules.Sorted (· ≤ ·) ∧ rowSpearman.special_rules.Nodup) :=
  ⟨List.mem_singleton.mpr rfl,
    (rules_and_loadout_sorted [some goodDoc] rowSpearman (List.mem_singleton.mpr rfl)).1⟩

/-- C5: the attribution result is invariant under any permutation of
the resolved equipment and rules price tables: iteration order of the
two tables never changes the returned pair. -/
theorem attribution_order_independent
    (edb₁ edb₂ rdb₁ rdb₂ : List (String × List (String × ℚ))) (row : Row)
    (he : ∀ role, (dbGet edb₁ role).Perm (dbGet edb₂ role))
    (hr : ∀ role, (dbGet rdb₁ role).Perm (dbGet rdb₂ role)) :
    calculate_split_values edb₁ rdb₁ row = calculate_split_values edb₂ rdb₂ row := by
  simp only [calculate_split_values, calcFromTables]
  rw [gearScan_perm (he (if row.org_slot = "Characters" then "character" else "rank_and_file"))
      (lowerStr row.default_equipment),
    ruleScan_perm (hr (if row.org_slot = "Characters" then "character" else "rank_and_file"))
      (lowerStr row.innate_rules)]

/-- Witness for C5 at two concrete tables that are permutations of
each other. -/
theorem attribution_order_witness :
    calculate_split_values edbA [] rowCrossbow = calculate_split_values edbB [] rowCrossbow :=
  attribution_order_independent edbA edbB [] [] rowCrossbow
    (fun role => by
      unfold edbA edbB
      rw [dbGet_single, dbGet_single]
      decide)
    (fun role => List.Perm.refl _)

/-- C6: every numeric cell of every loaded record — the nine stats and
Points — is non-negative; the missing-value placeholder and any
digit-free string normalize to 0, and a value embedded in a longer
string such as 4+ extracts its leading digit run. -/
theorem stats_nonneg (docs : List (Option FactionDoc)) (row : Row)
    (h : row ∈ (load_all_data docs).rows) :
    (0 ≤ row.points ∧ 0 ≤ row.M ∧ 0 ≤ row.WS ∧ 0 ≤ row.BS ∧ 0 ≤ row.S
      ∧ 0 ≤ row.T ∧ 0 ≤ row.W ∧ 0 ≤ row.I ∧ 0 ≤ row.A ∧ 0 ≤ row.Ld)
    ∧ normNum "-" = 0
    ∧ normNum "4+" = 4
    ∧ (∀ s : String, (∀ c ∈ s.toList, c.isDigit = false) → normNum s = 0) := by
  refine ⟨?_, rfl, rfl, ?_⟩
  · rcases row_shape h with ⟨f, unit, opts, defs, model, _, rfl⟩
    exact ⟨Nat.cast_nonneg _, normNum_nonneg _, normNum_nonneg _, normNum_nonneg _,
      normNum_nonneg _, normNum_nonneg _, normNum_nonneg _, normNum_nonneg _,
      normNum_nonneg _, normNum_nonneg _⟩
  · intro s hs
    unfold normNum
    rw [no_digit_run hs]

/-- Witness for C6 at a concrete loaded document. -/
theorem stats_nonneg_witness :
    rowSpearman ∈ (load_all_data [some goodDoc]).rows
    ∧ (0 ≤ rowSpearman.points ∧ 0 ≤ rowSpearman.M ∧ 0 ≤ rowSpearman.WS
      ∧ 0 ≤ rowSpearman.BS ∧ 0 ≤ rowSpearman.S ∧ 0 ≤ rowSpearman.T
      ∧ 0 ≤ rowSpearman.W ∧ 0 ≤ rowSpearman.I ∧ 0 ≤ rowSpearman.A
      ∧ 0 ≤ rowSpearman.Ld) :=
  ⟨List.mem_singleton.mpr rfl,
    (stats_nonneg [some goodDoc] rowSpearman (List.mem_singleton.mpr rfl)).1⟩

end OldWorld
